import Mathlib

/-!
Verification of the draft-core subsystem of the Oogway bot: the champion
catalog (alias resolution), the series/game data model, the draft turn
engine and the series progression controller, shallowly embedded from
`oogway/cogs/draft.py`, `oogway/models/series_state.py` and
`oogway/cogs/custom_5v5.py`.
-/

namespace Oogway

/- ═══════════════ ChampionCatalog: normalization and the alias dict ═══════════════
   Source: oogway/cogs/draft.py, `load_champs` (lines 62-104) and
   `canonicalize` (lines 107-118). The Python ALIASES dict is modelled as an
   association list with insertion-ordered, overwrite-in-place semantics. -/

/-- `str.lower()` on one character (the catalog data is ASCII). -/
def charLower (c : Char) : Char :=
  if 'A' ≤ c ∧ c ≤ 'Z' then Char.ofNat (c.toNat + 32) else c

/-- `s.lower()`. -/
def strLower (s : String) : String :=
  String.mk (s.toList.map charLower)

/-- `s.replace(" ", "")`. -/
def stripSpaces (s : String) : String :=
  String.mk (s.toList.filter (fun c => decide (c ≠ ' ')))

/-- Model of `name.lower().replace(" ", "")`. -/
def normalize (s : String) : String :=
  stripSpaces (strLower s)

def dictContains (d : List (String × String)) (k : String) : Bool :=
  d.any (fun p => decide (p.1 = k))

/-- Python dict assignment `d[k] = v`: overwrite in place, else append. -/
def dictInsert (d : List (String × String)) (k v : String) : List (String × String) :=
  if dictContains d k then
    d.map (fun p => if p.1 = k then (k, v) else p)
  else d ++ [(k, v)]

/-- Python dict lookup `d[k]` / `d.get(k)` (keys are unique). -/
def dictFind (d : List (String × String)) (k : String) : Option String :=
  (d.find? (fun p => decide (p.1 = k))).map (·.2)

def dictKeys (d : List (String × String)) : List String :=
  d.map (·.1)

/-- The fixed `manual` alias override table of `load_champs`, in source order. -/
def manualAliases : List (String × String) :=
  [("lb", "Leblanc"), ("mf", "MissFortune"), ("tf", "TwistedFate"),
   ("j4", "JarvanIV"), ("ww", "Warwick"), ("gp", "Gangplank"),
   ("wu", "MonkeyKing"), ("wk", "MonkeyKing"), ("wukong", "MonkeyKing"),
   ("mk", "MonkeyKing"), ("monkey", "MonkeyKing"),
   ("belv", "Belveth"), ("ks", "KSante"), ("cho", "Chogath")]

/-- Alias generation of `load_champs` given the catalog's champion ids in
dict order: for each id insert its lowercase slug, the space-stripped slug
and (when free, tracked by `taken`) the 3-character abbreviation; finally
`ALIASES.update(manual)`. -/
def buildAliases (champIds : List String) : List (String × String) :=
  let step := fun (st : List (String × String) × List String) (cid : String) =>
    let al := st.1
    let taken := st.2
    let slug := strLower cid
    let nospace := stripSpaces slug
    let al := dictInsert al slug cid
    let al := dictInsert al nospace cid
    let abbr3 := String.mk (nospace.toList.take 3)
    if ¬ (dictContains al abbr3 = true) ∧ ¬ (taken.contains abbr3 = true) then
      (dictInsert al abbr3 cid, taken ++ [abbr3])
    else (al, taken)
  let built := champIds.foldl step ([], [])
  manualAliases.foldl (fun d p => dictInsert d p.1 p.2) built.1

/- ═══════════════ difflib model: SequenceMatcher ratio over short strings ═══════════════
   For the alias strings in play (far shorter than 200 characters) difflib's
   autojunk and junk machinery is inert, so `ratio` is: recursively take the
   longest matching block (maximal length, ties broken by the earliest start
   in `a`, then in `b`), sum the matched lengths M, and return 2*M/(|a|+|b|).
   The ratio is kept as the exact pair (M, |a|+|b|) and compared by
   cross-multiplication; the cutoff 0.8 becomes `10*M ≥ 4*(|a|+|b|)`. -/

/-- Length of the longest common run starting at the heads of both lists. -/
def runLen : List Char → List Char → Nat
  | x :: xs, y :: ys => if x = y then runLen xs ys + 1 else 0
  | _, _ => 0

/-- All candidate blocks (i, j, size) of a against b, in scan order
(i ascending, then j ascending), matching the scan order of
`SequenceMatcher.find_longest_match`. -/
def blockCands (a b : List Char) : List (Nat × Nat × Nat) :=
  (List.range a.length).flatMap (fun i =>
    (List.range b.length).map (fun j => (i, j, runLen (a.drop i) (b.drop j))))

/-- The longest matching block: maximal size, earliest in a, then in b;
(0, 0, 0) when there is no match, as in difflib. -/
def bestBlock (a b : List Char) : Nat × Nat × Nat :=
  (blockCands a b).foldl (fun best c => if best.2.2 < c.2.2 then c else best) (0, 0, 0)

/-- Total matched length of `get_matching_blocks`: recurse on both sides of
the longest block. The fuel argument bounds the recursion depth; each
recursive call strictly shrinks `a`, so fuel `a.length` always suffices. -/
def matchTotalGo : Nat → List Char → List Char → Nat
  | 0, _, _ => 0
  | fuel + 1, a, b =>
    let best := bestBlock a b
    let i := best.1
    let j := best.2.1
    let k := best.2.2
    if k = 0 then 0
    else
      matchTotalGo fuel (a.take i) (b.take j) + k +
        matchTotalGo fuel (a.drop (i + k)) (b.drop (j + k))

/-- M of `SequenceMatcher(None, a, b)`: the total size of all matching blocks. -/
def matchTotal (a b : List Char) : Nat :=
  matchTotalGo a.length a b

/-- `ratio(x, w) ≥ 0.8`, exactly: 2*M/(|x|+|w|) ≥ 4/5. -/
def cutoff08 (x w : List Char) : Bool :=
  decide (4 * (x.length + w.length) ≤ 10 * matchTotal x w)

/-- ratio(x, w) < ratio(y, w), by cross-multiplication. -/
def ratioLtB (x y w : List Char) : Bool :=
  decide (matchTotal x w * (y.length + w.length) < matchTotal y w * (x.length + w.length))

/-- ratio(x, w) = ratio(y, w), by cross-multiplication. -/
def ratioEqB (x y w : List Char) : Bool :=
  decide (matchTotal x w * (y.length + w.length) = matchTotal y w * (x.length + w.length))

/-- Python string `<` (code-point lexicographic). -/
def strLtB : List Char → List Char → Bool
  | [], [] => false
  | [], _ :: _ => true
  | _ :: _, [] => false
  | x :: xs, y :: ys => if x = y then strLtB xs ys else decide (x < y)

/-- `difflib.get_close_matches(w, keys, n=1, cutoff=0.8)`: keep the keys whose
ratio meets the cutoff, then take the largest by the (ratio, key) pair as
`heapq.nlargest` orders it (first encountered wins among equals). -/
def close1 (w : List Char) (keys : List (List Char)) : Option (List Char) :=
  (keys.filter (fun x => cutoff08 x w)).foldl
    (fun best x =>
      match best with
      | none => some x
      | some b => if ratioLtB b x w || (ratioEqB b x w && strLtB b x) then some x else some b)
    none

/-- `canonicalize` of draft.py: normalize, exact alias lookup, else the best
fuzzy match at cutoff 0.8. -/
def canonicalize (aliases : List (String × String)) (name : String) : Option String :=
  match dictFind aliases (normalize name) with
  | some cid => some cid
  | none =>
    match close1 (normalize name).toList ((dictKeys aliases).map String.toList) with
    | some m => dictFind aliases (String.mk m)
    | none => none

/- ═══════════════ Game / SeriesState (oogway/models/series_state.py) ═══════════════ -/

/-- `Game`: one drafted match inside the series. -/
structure Game where
  picks_a : List String := []
  picks_b : List String := []
  bans_a : List String := []
  bans_b : List String := []
  winner : Option String := none
deriving DecidableEq, Repr

/-- `SeriesState`: the in-memory state of one best-of-N series. The Python
set `fearless_pool` is modelled as a duplicate-free list; `guild` (a Discord
handle cached for display only, never touched by the core operations) is
omitted. -/
structure SeriesState where
  id : String
  bo : Nat
  team_a : List Int
  team_b : List Int
  captain_a : Int
  captain_b : Int
  blue_side : String := "A"
  score_a : Nat := 0
  score_b : Nat := 0
  fearless_pool : List String := []
  games : List Game := [{}]
  captain_a_name : String := "Cap A"
  captain_b_name : String := "Cap B"
  status_msg_id : Option Nat := none
deriving DecidableEq, Repr

/-- `SeriesState.new` (the uuid is a parameter of the model). -/
def SeriesState.new (id : String) (bo : Nat) (team_a team_b : List Int)
    (captain_a captain_b : Int) : SeriesState :=
  { id := id, bo := bo, team_a := team_a, team_b := team_b,
    captain_a := captain_a, captain_b := captain_b, blue_side := "A",
    score_a := 0, score_b := 0, fearless_pool := [], games := [{}],
    captain_a_name := "Cap A", captain_b_name := "Cap B", status_msg_id := none }

/-- `series.current_game` is `games[-1]`; Python raises on an empty list,
modelled by `none`. -/
def SeriesState.currentGame (s : SeriesState) : Option Game :=
  s.games.getLast?

/-- `start_new_game`: append a fresh `Game()`. -/
def SeriesState.start_new_game (s : SeriesState) : SeriesState :=
  { s with games := s.games ++ [{}] }

/-- `finished`: has either side reached `bo // 2 + 1` wins. -/
def SeriesState.finished (s : SeriesState) : Bool :=
  let target := s.bo / 2 + 1
  decide (target ≤ s.score_a) || decide (target ≤ s.score_b)

/-- `swap_sides`: exchange teams, captains, cached captain names and scores. -/
def SeriesState.swap_sides (s : SeriesState) : SeriesState :=
  { s with team_a := s.team_b, team_b := s.team_a,
           captain_a := s.captain_b, captain_b := s.captain_a,
           captain_a_name := s.captain_b_name, captain_b_name := s.captain_a_name,
           score_a := s.score_b, score_b := s.score_a }

/- ═══════════════ DraftTurnEngine (draft.py lines 122-136, 455-594) ═══════════════ -/

/-- The fixed 20-slot turn order of draft.py. -/
def DRAFT_ORDER : List String :=
  ["A", "B", "A", "B", "A", "B"]
    ++ ["A", "B", "B", "A", "A", "B"]
    ++ ["B", "A", "B", "A"]
    ++ ["B", "A", "A", "B"]

/-- The ban slots (a Python set; membership is all that is used). -/
def BAN_INDEXES : List Nat := [0, 1, 2, 3, 4, 5, 12, 13, 14, 15]

/-- `TURN_TIME` of `_draft_loop`: 2 when exactly one member of the combined
teams has a positive id, else 60. -/
def turnTime (s : SeriesState) : Nat :=
  if ((s.team_a ++ s.team_b).filter (fun uid => decide (0 < uid))).length = 1 then 2 else 60

/-- `random_champ`: a uniform choice from the champion ids neither taken in
this game nor in the fearless pool; the choice is modelled by an arbitrary
index `r` into the pool. `none` models the exception `random.choice` raises
on an empty pool. -/
def random_champ (champs : List String) (fearless taken : List String) (r : Nat) :
    Option String :=
  let pool := champs.filter (fun c => decide (¬ c ∈ taken ∧ ¬ c ∈ fearless))
  pool[r % pool.length]?

/-- Python set insertion (`set.add`). -/
def setAdd (l : List String) (x : String) : List String :=
  if x ∈ l then l else l ++ [x]

/-- The message parsing of `_draft_loop`: strip the text, then drop an
optional leading `ban`/`pick` verb (with or without a slash) when the split
into verb and remainder yields exactly two parts. `splitMax1` models Python's
`raw.split(maxsplit=1)` on a string without leading whitespace. -/
def splitMax1 (l : List Char) : List (List Char) :=
  let l := l.dropWhile Char.isWhitespace
  if l.isEmpty then []
  else
    let tok := l.takeWhile (fun c => !c.isWhitespace)
    let rest := (l.dropWhile (fun c => !c.isWhitespace)).dropWhile Char.isWhitespace
    if rest.isEmpty then [tok] else [tok, rest]

/-- `raw.strip()`. -/
def trimChars (l : List Char) : List Char :=
  ((l.dropWhile Char.isWhitespace).reverse.dropWhile Char.isWhitespace).reverse

def parseSubmission (raw : String) : String :=
  let rawT := trimChars raw.toList
  let lower := rawT.map charLower
  if "/ban ".toList.isPrefixOf lower || "/pick ".toList.isPrefixOf lower
      || "ban ".toList.isPrefixOf lower || "pick ".toList.isPrefixOf lower then
    match splitMax1 rawT with
    | [_, rest] => String.mk rest
    | _ => String.mk rawT
  else String.mk rawT

/-- The per-turn validation loop over the captain's messages: an unresolved
or already-taken/fearless champion is skipped (the turn keeps waiting), the
first valid champion is accepted. `none` models the window closing with no
accepted champion. -/
def processMessages (aliases : List (String × String)) (taken fearless : List String) :
    List String → Option String
  | [] => none
  | m :: ms =>
    match canonicalize aliases (parseSubmission m) with
    | none => processMessages aliases taken fearless ms
    | some cand =>
      if cand ∈ taken ∨ cand ∈ fearless then processMessages aliases taken fearless ms
      else some cand

/-- The captain input and the random index backing one turn's events. -/
structure TurnInput where
  messages : List String
  timeoutRand : Nat

/-- The champion resolved for one turn: the first accepted submission, else
the random fallback. -/
def chooseChamp (aliases : List (String × String)) (champs : List String)
    (fearless taken : List String) (inp : TurnInput) : Option String :=
  match processMessages aliases taken fearless inp.messages with
  | some c => some c
  | none => random_champ champs fearless taken inp.timeoutRand

/-- Mutate the last element of the games list in place (Python mutates
`series.games[-1]` through `current_game`). -/
def modifyLast (f : Game → Game) : List Game → List Game
  | [] => []
  | [g] => [f g]
  | g :: gs => g :: modifyLast f gs

/-- `(game.bans_a if side == "A" else game.bans_b).append(champ_id)`. -/
def addBan (side champ : String) (g : Game) : Game :=
  if side = "A" then { g with bans_a := g.bans_a ++ [champ] }
  else { g with bans_b := g.bans_b ++ [champ] }

/-- `(game.picks_a if side == "A" else game.picks_b).append(champ_id)`. -/
def addPick (side champ : String) (g : Game) : Game :=
  if side = "A" then { g with picks_a := g.picks_a ++ [champ] }
  else { g with picks_b := g.picks_b ++ [champ] }

/-- Recording one resolved champion (draft.py lines 572-580): append to the
side's ban list on a ban slot, else to its pick list, adding a pick to the
fearless pool. -/
def recordChamp (side : String) (is_ban : Bool) (champ : String) (s : SeriesState) :
    SeriesState :=
  if is_ban then
    { s with games := modifyLast (addBan side champ) s.games }
  else
    { s with games := modifyLast (addPick side champ) s.games,
             fearless_pool := setAdd s.fearless_pool champ }

/-- One iteration of the `_draft_loop` while-loop at slot `ptr`. The access
to `series.current_game` fails on an empty games list; the resolved champion
is recorded and added to `taken`. -/
def draftStep (aliases : List (String × String)) (champs : List String)
    (inp : Nat → TurnInput) (st : SeriesState × List String) (ptr : Nat) :
    Option (SeriesState × List String) :=
  match st.1.games.getLast? with
  | none => none
  | some _ =>
    match chooseChamp aliases champs st.1.fearless_pool st.2 (inp ptr) with
    | none => none
    | some champ =>
      some (recordChamp (DRAFT_ORDER.getD ptr "") (BAN_INDEXES.contains ptr) champ st.1,
            setAdd st.2 champ)

/-- The while-loop over the given slot pointers. -/
def runSlots (aliases : List (String × String)) (champs : List String)
    (inp : Nat → TurnInput) : List Nat → SeriesState × List String →
    Option (SeriesState × List String)
  | [], st => some st
  | i :: rest, st =>
    match draftStep aliases champs inp st i with
    | none => none
    | some st' => runSlots aliases champs inp rest st'

/-- `_draft_loop`: run all 20 slots starting from an empty `taken` set. -/
def runDraft (aliases : List (String × String)) (champs : List String)
    (inp : Nat → TurnInput) (s : SeriesState) : Option SeriesState :=
  (runSlots aliases champs inp (List.range DRAFT_ORDER.length) (s, [])).map Prod.fst

/- ═══════════════ SeriesProgressionController (`_report`, draft.py 741-790) ═══════════════ -/

/-- Python truthiness of the `winner` field (`if series.current_game.winner:`). -/
def winnerTruthy : Option String → Bool
  | none => false
  | some w => decide (w ≠ "")

/-- The branch `_report` takes after recording (or rejecting) a result. -/
inductive ReportOutcome where
  | doubleReport
  | bo1End
  | bo3Tie
  | bo3End
  | bo5Tie
  | seriesVictory
  | continueSeries
deriving DecidableEq, Repr

/-- `series.current_game.winner = side`. -/
def setWinner (side : String) (g : Game) : Game :=
  { g with winner := some side }

/-- The state mutation of an accepted report: set the current game's winner
and bump the reported side's score (`score_a += side == "A"`). -/
def applyWinner (s : SeriesState) (side : String) : SeriesState :=
  { s with games := modifyLast (setWinner side) s.games,
           score_a := s.score_a + (if side = "A" then 1 else 0),
           score_b := s.score_b + (if side = "B" then 1 else 0) }

/-- The branch selection of `_report` after an accepted report, from the
mutated state: the `series.finished()` guard, then the bo-specific branches
in source order. -/
def reportBranch (s' : SeriesState) : ReportOutcome :=
  if s'.finished then
    if s'.bo = 1 then ReportOutcome.bo1End
    else if s'.bo = 3 ∧ s'.score_a = 1 ∧ s'.score_b = 1 then ReportOutcome.bo3Tie
    else if s'.bo = 3 then ReportOutcome.bo3End
    else if s'.bo = 5 ∧ s'.score_a = 2 ∧ s'.score_b = 2 then ReportOutcome.bo5Tie
    else ReportOutcome.seriesVictory
  else ReportOutcome.continueSeries

/-- The state transition of `_report`: reject a second report for a decided
game, otherwise set the winner, bump the reported side's score and branch as
the source does under `series.finished()`. `none` models the crash of
`series.current_game` on an empty games list. -/
def report (s : SeriesState) (side : String) : Option (ReportOutcome × SeriesState) :=
  match s.games.getLast? with
  | none => none
  | some g =>
    if winnerTruthy g.winner then some (ReportOutcome.doubleReport, s)
    else some (reportBranch (applyWinner s side), applyWinner s side)

/- ═══════════════ Lobby dispatch (oogway/cogs/custom_5v5.py) ═══════════════ -/

/-- `BOT_ID_START`: fake bot fill-in ids start here (custom_5v5.py line 47). -/
def BOT_ID_START : Int := 9999999999999999

/-- `generate_bot_id`. -/
def generate_bot_id (index : Nat) : Int :=
  BOT_ID_START + index

/-- The payload of the `start_draft` event as `launch_ready_and_dispatch`
dispatches it (custom_5v5.py lines 806-817): teams, channel, bo, captains. -/
structure StartDraftEvent where
  team_a : List Int
  team_b : List Int
  channelId : Nat
  bo : Nat
  captain_a : Int
  captain_b : Int
deriving DecidableEq, Repr

/-- The lobby options chosen in `SetupView` and stored on `JoinView`
(custom_5v5.py lines 135-139). -/
structure JoinSettings where
  bo : Nat
  fearless : Bool
  captain_pick : Bool
deriving DecidableEq, Repr

/-- `launch_ready_and_dispatch`: the dispatched `start_draft` event carries
teams, channel, bo and captains only. -/
def launch_ready_and_dispatch (channelId : Nat) (team_a team_b : List Int)
    (cap_a cap_b : Int) (bo : Nat) : StartDraftEvent :=
  { team_a := team_a, team_b := team_b, channelId := channelId, bo := bo,
    captain_a := cap_a, captain_b := cap_b }

/-- A lobby call site passes `bo=self.join_view.bo` and nothing else of the
join settings to `launch_ready_and_dispatch`. -/
def dispatchFromLobby (channelId : Nat) (settings : JoinSettings)
    (team_a team_b : List Int) (cap_a cap_b : Int) : StartDraftEvent :=
  launch_ready_and_dispatch channelId team_a team_b cap_a cap_b settings.bo

/-- `on_start_draft` (draft.py lines 429-433) builds the series from the
event payload alone. -/
def seriesFromEvent (uuid : String) (ev : StartDraftEvent) : SeriesState :=
  SeriesState.new uuid ev.bo ev.team_a ev.team_b ev.captain_a ev.captain_b

/- ═══════════════ Catalog cache refresh (`load_champs`, draft.py 62-78) ═══════════════ -/

/-- The module-level catalog cache: `CHAMPS_CACHE` (champion ids, empty list
for the initial empty dict), `CHAMPS_CACHE_TIME` and the derived `ALIASES`. -/
structure CatalogCache where
  champs : List String
  cacheTime : Nat
  aliases : List (String × String)
deriving DecidableEq, Repr

/-- `load_champs(force_refresh)`: return the cache untouched when it is
nonempty and fresher than the TTL (and no forced refresh); otherwise fetch.
`fetch` stands for the two Data-Dragon HTTP calls: `.error` is a raised
exception (which the source does not catch, so it propagates to the caller
with the module cache unchanged), `.ok` the fetched champion ids, from which
the alias table is rebuilt wholesale. -/
def load_champs (force_refresh : Bool) (now ttl : Nat) (cache : CatalogCache)
    (fetch : Except Unit (List String)) : Except Unit CatalogCache :=
  if ¬ force_refresh ∧ cache.champs ≠ [] ∧ now - cache.cacheTime < ttl then
    Except.ok cache
  else
    match fetch with
    | Except.error e => Except.error e
    | Except.ok data =>
      Except.ok { champs := data, cacheTime := now, aliases := buildAliases data }

/- ═══════════════ Basic lemmas about the embedded operations ═══════════════ -/

theorem modifyLast_of_getLast? (f : Game → Game) :
    ∀ gs : List Game, ∀ g, gs.getLast? = some g →
      modifyLast f gs = gs.dropLast ++ [f g]
  | [], g, h => by simp at h
  | [g0], g, h => by
    simp only [List.getLast?_singleton, Option.some.injEq] at h
    subst h; rfl
  | g0 :: g1 :: gs, g, h => by
    rw [List.getLast?_cons_cons] at h
    have ih := modifyLast_of_getLast? f (g1 :: gs) g h
    simp only [modifyLast, List.dropLast_cons₂, List.cons_append, ih]

theorem dropLast_append_of_getLast? :
    ∀ gs : List Game, ∀ g, gs.getLast? = some g → gs.dropLast ++ [g] = gs
  | [], g, h => by simp at h
  | [g0], g, h => by
    simp only [List.getLast?_singleton, Option.some.injEq] at h
    subst h; rfl
  | g0 :: g1 :: gs, g, h => by
    rw [List.getLast?_cons_cons] at h
    have ih := dropLast_append_of_getLast? (g1 :: gs) g h
    simp only [List.dropLast_cons₂, List.cons_append, ih]

theorem modifyLast_getLast? (f : Game → Game) (gs : List Game) (g : Game)
    (h : gs.getLast? = some g) : (modifyLast f gs).getLast? = some (f g) := by
  rw [modifyLast_of_getLast? f gs g h, List.getLast?_concat]

theorem modifyLast_map_winner (f : Game → Game) (hf : ∀ g, (f g).winner = g.winner)
    (gs : List Game) (g : Game) (h : gs.getLast? = some g) :
    (modifyLast f gs).map Game.winner = gs.map Game.winner := by
  rw [modifyLast_of_getLast? f gs g h]
  conv_rhs => rw [← dropLast_append_of_getLast? gs g h]
  simp [hf g]

theorem setAdd_of_not_mem {l : List String} {x : String} (h : x ∉ l) :
    setAdd l x = l ++ [x] := by
  simp [setAdd, h]

theorem mem_setAdd_self (l : List String) (x : String) : x ∈ setAdd l x := by
  unfold setAdd
  split
  · assumption
  · simp

theorem mem_setAdd_of_mem {l : List String} {x y : String} (h : y ∈ l) :
    y ∈ setAdd l x := by
  unfold setAdd
  split
  · exact h
  · simp [h]

theorem processMessages_legal (aliases : List (String × String))
    (taken fearless : List String) :
    ∀ msgs c, processMessages aliases taken fearless msgs = some c →
      c ∉ taken ∧ c ∉ fearless
  | [], c, h => by simp [processMessages] at h
  | m :: ms, c, h => by
    unfold processMessages at h
    cases hc : canonicalize aliases (parseSubmission m) with
    | none =>
      rw [hc] at h
      exact processMessages_legal aliases taken fearless ms c h
    | some cand =>
      rw [hc] at h
      have h' : (if cand ∈ taken ∨ cand ∈ fearless then
          processMessages aliases taken fearless ms else some cand) = some c := h
      by_cases hmem : cand ∈ taken ∨ cand ∈ fearless
      · rw [if_pos hmem] at h'
        exact processMessages_legal aliases taken fearless ms c h'
      · rw [if_neg hmem] at h'
        cases h'
        push_neg at hmem
        exact hmem

theorem random_champ_legal (champs fearless taken : List String) (r : Nat) (c : String)
    (h : random_champ champs fearless taken r = some c) :
    c ∈ champs ∧ c ∉ taken ∧ c ∉ fearless := by
  unfold random_champ at h
  have hmem := List.getElem?_mem h
  rw [List.mem_filter] at hmem
  have hp := of_decide_eq_true hmem.2
  exact ⟨hmem.1, hp.1, hp.2⟩

theorem chooseChamp_legal (aliases : List (String × String)) (champs : List String)
    (fearless taken : List String) (inp : TurnInput) (c : String)
    (h : chooseChamp aliases champs fearless taken inp = some c) :
    c ∉ taken ∧ c ∉ fearless := by
  unfold chooseChamp at h
  cases hp : processMessages aliases taken fearless inp.messages with
  | some c' =>
    rw [hp] at h
    cases h
    exact processMessages_legal aliases taken fearless inp.messages c hp
  | none =>
    rw [hp] at h
    exact (random_champ_legal champs fearless taken inp.timeoutRand c h).2

/-- The game update a recorded turn performs on the current game. -/
def recordGame (side : String) (is_ban : Bool) (champ : String) (g : Game) : Game :=
  if is_ban then addBan side champ g else addPick side champ g

theorem draftStep_elim {aliases : List (String × String)} {champs : List String}
    {inp : Nat → TurnInput} {st st' : SeriesState × List String} {i : Nat}
    (h : draftStep aliases champs inp st i = some st') :
    ∃ g champ, st.1.games.getLast? = some g ∧
      chooseChamp aliases champs st.1.fearless_pool st.2 (inp i) = some champ ∧
      st' = (recordChamp (DRAFT_ORDER.getD i "") (BAN_INDEXES.contains i) champ st.1,
             setAdd st.2 champ) := by
  unfold draftStep at h
  cases hg : st.1.games.getLast? with
  | none => rw [hg] at h; cases h
  | some g =>
    rw [hg] at h
    cases hc : chooseChamp aliases champs st.1.fearless_pool st.2 (inp i) with
    | none => rw [hc] at h; cases h
    | some champ =>
      rw [hc] at h
      cases h
      exact ⟨g, champ, rfl, rfl, rfl⟩

theorem recordChamp_getLast? (side : String) (is_ban : Bool) (champ : String)
    (s : SeriesState) (g : Game) (hg : s.games.getLast? = some g) :
    (recordChamp side is_ban champ s).games.getLast? =
      some (recordGame side is_ban champ g) := by
  unfold recordChamp recordGame
  cases is_ban <;> simp only [if_true, if_false, Bool.false_eq_true] <;>
    exact modifyLast_getLast? _ s.games g hg

theorem recordChamp_fearless (side : String) (is_ban : Bool) (champ : String)
    (s : SeriesState) :
    (recordChamp side is_ban champ s).fearless_pool =
      if is_ban then s.fearless_pool else setAdd s.fearless_pool champ := by
  unfold recordChamp
  cases is_ban <;> rfl

/-- All champions recorded in a game, as the multiset picksA + picksB + bansA + bansB. -/
def gameChamps (g : Game) : Multiset String :=
  (g.picks_a : Multiset String) + (g.picks_b : Multiset String)
    + (g.bans_a : Multiset String) + (g.bans_b : Multiset String)

theorem permInsert2 {α : Type} (a : α) (l₁ l₂ r : List α) :
    (l₁ ++ (l₂ ++ a :: r)).Perm (a :: (l₁ ++ (l₂ ++ r))) :=
  (List.Perm.append_left l₁ List.perm_middle).trans List.perm_middle

theorem permInsert3 {α : Type} (a : α) (l₁ l₂ l₃ r : List α) :
    (l₁ ++ (l₂ ++ (l₃ ++ a :: r))).Perm (a :: (l₁ ++ (l₂ ++ (l₃ ++ r)))) :=
  (List.Perm.append_left l₁ (permInsert2 a l₂ l₃ r)).trans List.perm_middle

theorem permConcat3 {α : Type} (a : α) (l₁ l₂ l₃ l₄ : List α) :
    (l₁ ++ (l₂ ++ (l₃ ++ (l₄ ++ [a])))).Perm (a :: (l₁ ++ (l₂ ++ (l₃ ++ l₄)))) :=
  (List.Perm.append_left l₁
    ((List.Perm.append_left l₂
      ((List.Perm.append_left l₃ (List.perm_append_singleton a l₄)).trans
        List.perm_middle)).trans List.perm_middle)).trans List.perm_middle

theorem gameChamps_recordGame (side : String) (is_ban : Bool) (champ : String) (g : Game) :
    gameChamps (recordGame side is_ban champ g) = champ ::ₘ gameChamps g := by
  rcases g with ⟨pa, pb, ba, bb, w⟩
  unfold recordGame addBan addPick gameChamps
  cases is_ban <;> by_cases hs : side = "A" <;>
    simp only [hs, if_true, if_false, Bool.false_eq_true, ite_true, ite_false] <;>
    simp <;>
    first
      | exact List.perm_middle
      | exact permInsert2 champ _ _ _
      | exact permInsert3 champ _ _ _ _
      | exact permConcat3 champ _ _ _ _

theorem picks_recordGame (side : String) (is_ban : Bool) (champ : String) (g : Game)
    (x : String)
    (hx : x ∈ (recordGame side is_ban champ g).picks_a ++ (recordGame side is_ban champ g).picks_b) :
    x ∈ g.picks_a ++ g.picks_b ∨ (is_ban = false ∧ x = champ) := by
  unfold recordGame addBan addPick at hx
  cases is_ban <;> by_cases hs : side = "A" <;>
    simp [hs] at hx <;> simp <;> tauto

/- ═══════════════ The per-game draft invariant ═══════════════ -/

/-- The invariant the draft loop maintains over its state `(series, taken)`,
relative to the fearless pool `F` at the start of the game: the current game
exists; its recorded champions are exactly the `taken` set, without
duplicates and disjoint from `F`; `F` stays inside the live fearless pool;
and every recorded pick is in the live fearless pool. -/
def draftInv (F : List String) (st : SeriesState × List String) : Prop :=
  ∃ g, st.1.games.getLast? = some g ∧
    gameChamps g = (st.2 : Multiset String) ∧
    st.2.Nodup ∧
    (∀ x ∈ st.2, x ∉ F) ∧
    (∀ x ∈ F, x ∈ st.1.fearless_pool) ∧
    (∀ x ∈ g.picks_a ++ g.picks_b, x ∈ st.1.fearless_pool)

theorem draftStep_inv {aliases : List (String × String)} {champs : List String}
    {inp : Nat → TurnInput} {st st' : SeriesState × List String} {i : Nat}
    {F : List String} (h : draftStep aliases champs inp st i = some st')
    (hinv : draftInv F st) : draftInv F st' := by
  obtain ⟨g, hg, hms, hnd, hdisj, hF, hpicks⟩ := hinv
  obtain ⟨g0, champ, hg0, hch, hst'⟩ := draftStep_elim h
  rw [hg] at hg0
  injection hg0 with hgg
  subst hgg
  obtain ⟨hnotTaken, hnotPool⟩ := chooseChamp_legal _ _ _ _ _ _ hch
  subst hst'
  refine ⟨recordGame (DRAFT_ORDER.getD i "") (BAN_INDEXES.contains i) champ g,
    recordChamp_getLast? _ _ _ _ _ hg, ?_, ?_, ?_, ?_, ?_⟩
  · rw [gameChamps_recordGame, hms, setAdd_of_not_mem hnotTaken]
    exact (Multiset.coe_eq_coe.mpr (List.perm_append_singleton champ st.2)).symm ▸
      (Multiset.cons_coe champ st.2)
  · rw [setAdd_of_not_mem hnotTaken]
    simp [List.nodup_append, hnd, hnotTaken]
  · intro x hx
    rw [setAdd_of_not_mem hnotTaken] at hx
    rcases List.mem_append.mp hx with hx | hx
    · exact hdisj x hx
    · rcases List.mem_singleton.mp hx with rfl
      intro hxF
      exact hnotPool (hF x hxF)
  · intro x hxF
    rw [recordChamp_fearless]
    split
    · exact hF x hxF
    · exact mem_setAdd_of_mem (hF x hxF)
  · intro x hx
    rcases picks_recordGame _ _ _ _ _ hx with hx | ⟨hban, rfl⟩
    · rw [recordChamp_fearless]
      split
      · exact hpicks x hx
      · exact mem_setAdd_of_mem (hpicks x hx)
    · rw [recordChamp_fearless, hban]
      simp only [Bool.false_eq_true, if_false]
      exact mem_setAdd_self _ _

theorem runSlots_inv {aliases : List (String × String)} {champs : List String}
    {inp : Nat → TurnInput} {F : List String} :
    ∀ (l : List Nat) (st st' : SeriesState × List String),
      runSlots aliases champs inp l st = some st' → draftInv F st → draftInv F st'
  | [], st, st', h, hinv => by
    rw [runSlots] at h
    cases h
    exact hinv
  | i :: rest, st, st', h, hinv => by
    rw [runSlots] at h
    cases hstep : draftStep aliases champs inp st i with
    | none => rw [hstep] at h; cases h
    | some st1 =>
      rw [hstep] at h
      exact runSlots_inv rest st1 st' h (draftStep_inv hstep hinv)

/- ═══════════════ Slot bookkeeping for the 20-turn schedule ═══════════════ -/

/-- Slot i is a ban by side A. -/
def slotBanA (i : Nat) : Bool :=
  BAN_INDEXES.contains i && decide (DRAFT_ORDER.getD i "" = "A")

/-- Slot i is a ban by side B (any non-"A" side string goes to the B lists). -/
def slotBanB (i : Nat) : Bool :=
  BAN_INDEXES.contains i && !(decide (DRAFT_ORDER.getD i "" = "A"))

/-- Slot i is a pick by side A. -/
def slotPickA (i : Nat) : Bool :=
  !(BAN_INDEXES.contains i) && decide (DRAFT_ORDER.getD i "" = "A")

/-- Slot i is a pick by side B. -/
def slotPickB (i : Nat) : Bool :=
  !(BAN_INDEXES.contains i) && !(decide (DRAFT_ORDER.getD i "" = "A"))

theorem recordGame_lengths (side : String) (is_ban : Bool) (champ : String) (g : Game) :
    (recordGame side is_ban champ g).bans_a.length
        = g.bans_a.length + (if is_ban && decide (side = "A") then 1 else 0) ∧
    (recordGame side is_ban champ g).bans_b.length
        = g.bans_b.length + (if is_ban && !(decide (side = "A")) then 1 else 0) ∧
    (recordGame side is_ban champ g).picks_a.length
        = g.picks_a.length + (if !is_ban && decide (side = "A") then 1 else 0) ∧
    (recordGame side is_ban champ g).picks_b.length
        = g.picks_b.length + (if !is_ban && !(decide (side = "A")) then 1 else 0) := by
  unfold recordGame addBan addPick
  cases is_ban <;> by_cases hs : side = "A" <;> simp [hs]

theorem runSlots_lengths {aliases : List (String × String)} {champs : List String}
    {inp : Nat → TurnInput} :
    ∀ (l : List Nat) (st st' : SeriesState × List String),
      runSlots aliases champs inp l st = some st' →
      ∀ g, st.1.games.getLast? = some g →
      ∃ g', st'.1.games.getLast? = some g' ∧
        g'.bans_a.length = g.bans_a.length + l.countP slotBanA ∧
        g'.bans_b.length = g.bans_b.length + l.countP slotBanB ∧
        g'.picks_a.length = g.picks_a.length + l.countP slotPickA ∧
        g'.picks_b.length = g.picks_b.length + l.countP slotPickB
  | [], st, st', h, g, hg => by
    rw [runSlots] at h
    cases h
    exact ⟨g, hg, by simp⟩
  | i :: rest, st, st', h, g, hg => by
    rw [runSlots] at h
    cases hstep : draftStep aliases champs inp st i with
    | none => rw [hstep] at h; cases h
    | some st1 =>
      rw [hstep] at h
      obtain ⟨g0, champ, hg0, hch, hst1⟩ := draftStep_elim hstep
      rw [hg] at hg0
      injection hg0 with hgg
      subst hgg
      have hlast1 : st1.1.games.getLast?
          = some (recordGame (DRAFT_ORDER.getD i "") (BAN_INDEXES.contains i) champ g) := by
        rw [hst1]
        exact recordChamp_getLast? _ _ _ _ _ hg
      obtain ⟨hba, hbb, hpa, hpb⟩ :=
        recordGame_lengths (DRAFT_ORDER.getD i "") (BAN_INDEXES.contains i) champ g
      obtain ⟨g', hg', ha, hb, hc, hd⟩ := runSlots_lengths rest st1 st' h _ hlast1
      refine ⟨g', hg', ?_, ?_, ?_, ?_⟩ <;>
        simp only [List.countP_cons, slotBanA, slotBanB, slotPickA, slotPickB, ha, hb, hc, hd,
          hba, hbb, hpa, hpb] <;>
        omega

/- ═══════════════ Score/winner bookkeeping (claim C3 machinery) ═══════════════ -/

theorem addBan_winner (side champ : String) (g : Game) :
    (addBan side champ g).winner = g.winner := by
  unfold addBan; split <;> rfl

theorem addPick_winner (side champ : String) (g : Game) :
    (addPick side champ g).winner = g.winner := by
  unfold addPick; split <;> rfl

theorem recordChamp_map_winner (side : String) (is_ban : Bool) (champ : String)
    (s : SeriesState) (g : Game) (hg : s.games.getLast? = some g) :
    (recordChamp side is_ban champ s).games.map Game.winner = s.games.map Game.winner := by
  unfold recordChamp
  cases is_ban <;> simp only [if_true, if_false, Bool.false_eq_true] <;>
    exact modifyLast_map_winner _ (by intro g'; first
      | exact addPick_winner side champ g'
      | exact addBan_winner side champ g') s.games g hg

theorem recordChamp_scores (side : String) (is_ban : Bool) (champ : String)
    (s : SeriesState) :
    (recordChamp side is_ban champ s).score_a = s.score_a ∧
    (recordChamp side is_ban champ s).score_b = s.score_b := by
  unfold recordChamp
  split <;> exact ⟨rfl, rfl⟩

theorem runSlots_frame {aliases : List (String × String)} {champs : List String}
    {inp : Nat → TurnInput} :
    ∀ (l : List Nat) (st st' : SeriesState × List String),
      runSlots aliases champs inp l st = some st' →
      st'.1.games.map Game.winner = st.1.games.map Game.winner ∧
      st'.1.score_a = st.1.score_a ∧ st'.1.score_b = st.1.score_b
  | [], st, st', h => by
    rw [runSlots] at h
    cases h
    exact ⟨rfl, rfl, rfl⟩
  | i :: rest, st, st', h => by
    rw [runSlots] at h
    cases hstep : draftStep aliases champs inp st i with
    | none => rw [hstep] at h; cases h
    | some st1 =>
      rw [hstep] at h
      obtain ⟨g, champ, hg, hch, hst1⟩ := draftStep_elim hstep
      obtain ⟨hw, hsa, hsb⟩ := runSlots_frame rest st1 st' h
      have hrw : st1.1.games.map Game.winner = st.1.games.map Game.winner := by
        rw [hst1]
        exact recordChamp_map_winner _ _ _ _ _ hg
      have hrs := recordChamp_scores (DRAFT_ORDER.getD i "") (BAN_INDEXES.contains i) champ st.1
      constructor
      · rw [hw, hrw]
      constructor
      · rw [hsa, hst1]; exact hrs.1
      · rw [hsb, hst1]; exact hrs.2

/-- The number of games with a winner set. -/
def decidedCount (s : SeriesState) : Nat :=
  s.games.countP (fun g => g.winner.isSome)

/-- Every recorded winner is "A" or "B" (or the game is still open). -/
def winnersOK (s : SeriesState) : Prop :=
  ∀ g ∈ s.games, g.winner = none ∨ g.winner = some "A" ∨ g.winner = some "B"

/-- The series-level invariant of claim C3. -/
def seriesInv (s : SeriesState) : Prop :=
  s.score_a + s.score_b = decidedCount s ∧ winnersOK s

theorem decidedCount_eq_map (s : SeriesState) :
    decidedCount s = (s.games.map Game.winner).countP (fun w => w.isSome) := by
  unfold decidedCount
  rw [List.countP_map]
  rfl

/-- Unpacking `report`: either a rejection on an already-won game, or the
`applyWinner` mutation and a non-rejection branch. -/
theorem report_cases {s : SeriesState} {side : String} {o : ReportOutcome}
    {s' : SeriesState} (h : report s side = some (o, s')) :
    ∃ g, s.games.getLast? = some g ∧
      ((winnerTruthy g.winner = true ∧ o = ReportOutcome.doubleReport ∧ s' = s) ∨
       (winnerTruthy g.winner = false ∧ s' = applyWinner s side ∧
        o = reportBranch (applyWinner s side) ∧ o ≠ ReportOutcome.doubleReport)) := by
  unfold report at h
  cases hg : s.games.getLast? with
  | none => rw [hg] at h; cases h
  | some g =>
    rw [hg] at h
    have h0 : (if winnerTruthy g.winner then some (ReportOutcome.doubleReport, s)
        else some (reportBranch (applyWinner s side), applyWinner s side))
          = some (o, s') := h
    by_cases hw : winnerTruthy g.winner = true
    · rw [if_pos hw] at h0
      injection h0 with h'
      injection h' with h1 h2
      exact ⟨g, rfl, Or.inl ⟨hw, h1.symm, h2.symm⟩⟩
    · rw [if_neg hw] at h0
      injection h0 with h'
      injection h' with h1 h2
      refine ⟨g, rfl, Or.inr ⟨by simpa using hw, h2.symm, h1.symm, ?_⟩⟩
      rw [← h1]
      unfold reportBranch
      split
      · split
        · intro hc; cases hc
        · split
          · intro hc; cases hc
          · split
            · intro hc; cases hc
            · split
              · intro hc; cases hc
              · intro hc; cases hc
      · intro hc; cases hc

theorem winner_none_of_ok {s : SeriesState} {g : Game} (hok : winnersOK s)
    (hg : s.games.getLast? = some g) (hw : winnerTruthy g.winner = false) :
    g.winner = none := by
  rcases hok g (List.mem_of_mem_getLast? hg) with h | h | h
  · exact h
  · rw [h] at hw; simp [winnerTruthy] at hw
  · rw [h] at hw; simp [winnerTruthy] at hw

theorem applyWinner_seriesInv {s : SeriesState} {side : String} {g : Game}
    (hg : s.games.getLast? = some g) (hw : winnerTruthy g.winner = false)
    (hvalid : side = "A" ∨ side = "B") (hinv : seriesInv s) :
    seriesInv (applyWinner s side) := by
  obtain ⟨hsum, hok⟩ := hinv
  have hnone := winner_none_of_ok hok hg hw
  have hgames : (applyWinner s side).games = s.games.dropLast ++ [setWinner side g] := by
    unfold applyWinner
    exact modifyLast_of_getLast? _ s.games g hg
  have hsplit : s.games = s.games.dropLast ++ [g] := (dropLast_append_of_getLast? _ g hg).symm
  have hcount' : decidedCount (applyWinner s side)
      = (s.games.dropLast.countP (fun g => g.winner.isSome)) + 1 := by
    unfold decidedCount
    rw [hgames, List.countP_append]
    simp [setWinner]
  have hcount : decidedCount s = s.games.dropLast.countP (fun g => g.winner.isSome) := by
    unfold decidedCount
    conv_lhs => rw [hsplit]
    rw [List.countP_append]
    simp [hnone]
  constructor
  · show (applyWinner s side).score_a + (applyWinner s side).score_b = _
    rw [hcount']
    rcases hvalid with rfl | rfl <;> simp [applyWinner] <;> omega
  · intro g' hg'
    rw [hgames] at hg'
    rcases List.mem_append.mp hg' with h | h
    · exact hok g' (List.mem_of_mem_dropLast h)
    · rcases List.mem_singleton.mp h with rfl
      rcases hvalid with rfl | rfl
      · exact Or.inr (Or.inl rfl)
      · exact Or.inr (Or.inr rfl)

/- ═══════════════ The mutating operations as a series history (claim C3) ═══════════════ -/

/-- The operations that mutate a `SeriesState` during its life: an accepted
or rejected winner report, the loser's side swap, starting the next game,
and a full draft of the current game. -/
inductive DraftAction where
  | reportWin (side : String)
  | swapSides
  | newGame
  | draft (aliases : List (String × String)) (champs : List String) (inp : Nat → TurnInput)

def applyAction (s : SeriesState) : DraftAction → Option SeriesState
  | DraftAction.reportWin side => (report s side).map Prod.snd
  | DraftAction.swapSides => some s.swap_sides
  | DraftAction.newGame => some s.start_new_game
  | DraftAction.draft aliases champs inp => runDraft aliases champs inp s

def applyActions : List DraftAction → SeriesState → Option SeriesState
  | [], s => some s
  | a :: rest, s =>
    match applyAction s a with
    | none => none
    | some s' => applyActions rest s'

/-- Reports carry a side reported by one of the two win buttons. -/
def validAction : DraftAction → Prop
  | DraftAction.reportWin side => side = "A" ∨ side = "B"
  | _ => True

theorem applyAction_seriesInv {s s' : SeriesState} {a : DraftAction}
    (hvalid : validAction a) (h : applyAction s a = some s') (hinv : seriesInv s) :
    seriesInv s' := by
  cases a with
  | reportWin side =>
    have hm : Option.map Prod.snd (report s side) = some s' := h
    cases hrep : report s side with
    | none => rw [hrep] at hm; cases hm
    | some pr =>
      rw [hrep] at hm
      obtain ⟨o, s''⟩ := pr
      injection hm with hm'
      cases hm'
      obtain ⟨g, hg, hcase⟩ := report_cases hrep
      rcases hcase with ⟨_, _, rfl⟩ | ⟨hw, rfl, _, _⟩
      · exact hinv
      · exact applyWinner_seriesInv hg hw hvalid hinv
  | swapSides =>
    cases h
    obtain ⟨hsum, hok⟩ := hinv
    constructor
    · show s.score_b + s.score_a = decidedCount s
      omega
    · exact hok
  | newGame =>
    have hm : some s.start_new_game = some s' := h
    injection hm with hm'
    cases hm'
    obtain ⟨hsum, hok⟩ := hinv
    have hcnt : decidedCount s.start_new_game = decidedCount s := by
      unfold decidedCount SeriesState.start_new_game
      rw [List.countP_append]
      simp
    constructor
    · show s.start_new_game.score_a + s.start_new_game.score_b = _
      rw [hcnt]
      exact hsum
    · intro g hg
      rcases List.mem_append.mp hg with hmem | hmem
      · exact hok g hmem
      · rcases List.mem_singleton.mp hmem with rfl
        exact Or.inl rfl
  | draft aliases champs inp =>
    have hm : (runSlots aliases champs inp (List.range DRAFT_ORDER.length) (s, [])).map
        Prod.fst = some s' := h
    cases hrun : runSlots aliases champs inp (List.range DRAFT_ORDER.length) (s, []) with
    | none => rw [hrun] at hm; cases hm
    | some st' =>
      rw [hrun] at hm
      injection hm with hm'
      cases hm'
      obtain ⟨hw, hsa, hsb⟩ := runSlots_frame _ _ _ hrun
      obtain ⟨hsum, hok⟩ := hinv
      constructor
      · show st'.1.score_a + st'.1.score_b = _
        rw [decidedCount_eq_map, hw, hsa, hsb, ← decidedCount_eq_map]
        exact hsum
      · intro g hg
        have hmemw : g.winner ∈ st'.1.games.map Game.winner := List.mem_map_of_mem _ hg
        rw [hw] at hmemw
        obtain ⟨g0, hg0, hweq⟩ := List.mem_map.mp hmemw
        rw [← hweq]
        exact hok g0 hg0

theorem applyActions_seriesInv :
    ∀ (acts : List DraftAction) (s s' : SeriesState),
      (∀ a ∈ acts, validAction a) → applyActions acts s = some s' →
      seriesInv s → seriesInv s'
  | [], s, s', _, h, hinv => by
    rw [applyActions] at h
    cases h
    exact hinv
  | a :: rest, s, s', hv, h, hinv => by
    rw [applyActions] at h
    cases hstep : applyAction s a with
    | none => rw [hstep] at h; cases h
    | some s1 =>
      rw [hstep] at h
      exact applyActions_seriesInv rest s1 s' (fun x hx => hv x (List.mem_cons_of_mem a hx)) h
        (applyAction_seriesInv (hv a (List.mem_cons_self a rest)) hstep hinv)

theorem seriesInv_new (id : String) (bo : Nat) (team_a team_b : List Int)
    (captain_a captain_b : Int) :
    seriesInv (SeriesState.new id bo team_a team_b captain_a captain_b) := by
  constructor
  · show 0 + 0 = decidedCount _
    rfl
  · intro g hg
    rcases List.mem_singleton.mp hg with rfl
    exact Or.inl rfl

/- ═══════════════ Concrete fixtures for witnesses and counterexamples ═══════════════ -/

/-- The alias table the catalog builds for a data source containing the
single champion id "MonkeyKing" (plus the fixed manual override table). -/
def monkeyCatalogAliases : List (String × String) :=
  buildAliases ["MonkeyKing"]

/-- Twenty concrete champion ids, enough for one full draft. -/
def testChamps : List String :=
  ["Aatrox", "Ahri", "Akali", "Alistar", "Amumu", "Annie", "Ashe", "Azir", "Bard", "Brand",
   "Braum", "Caitlyn", "Camille", "Corki", "Darius", "Diana", "Draven", "Ekko", "Elise",
   "Evelynn"]

def testSeries : SeriesState :=
  SeriesState.new "witness1" 3 [1, 2, 3, 4, 5] [6, 7, 8, 9, 10] 1 6

/-- Every turn times out (no captain messages, random index 0). -/
def silentInput : Nat → TurnInput := fun _ => ⟨[], 0⟩

/-- A Bo3 at 1-0 whose second game has just been drafted: reporting "B" makes
the score 1-1, the midpoint tie of the spec's belle scenario. -/
def c4Series : SeriesState :=
  { id := "c4", bo := 3, team_a := [1], team_b := [2], captain_a := 1, captain_b := 2,
    score_a := 1, score_b := 0, games := [{ winner := some "A" }, {}] }

/-- A series whose current game already has a winner. -/
def c5Series : SeriesState :=
  { id := "c5", bo := 1, team_a := [1], team_b := [2], captain_a := 1, captain_b := 2,
    score_a := 1, games := [{ winner := some "A" }] }

/-- A dev-filled solo session: one human (111) and nine bot fill-ins. -/
def c9Series : SeriesState :=
  SeriesState.new "c9" 1
    [111, generate_bot_id 0, generate_bot_id 1, generate_bot_id 2, generate_bot_id 3]
    [generate_bot_id 4, generate_bot_id 5, generate_bot_id 6, generate_bot_id 7,
     generate_bot_id 8]
    111 (generate_bot_id 4)

/-- A nonempty catalog cache older than the TTL. -/
def staleCache : CatalogCache :=
  { champs := ["Ahri"], cacheTime := 0, aliases := buildAliases ["Ahri"] }

/- ═══════════════ The claims ═══════════════ -/

/-- C1: the 20 turns of one game follow the fixed (side, isBan) table —
sides A,B,A,B,A,B,A,B,B,A,A,B,B,A,B,A,B,A,A,B with bans exactly at slots
0-5 and 12-15 — regardless of captain identities or input timing, so a
completed drafted game records exactly 5 bans and 5 picks for each side. -/
theorem C1_turn_order_and_counts :
    ((List.range DRAFT_ORDER.length).map
        (fun i => (DRAFT_ORDER.getD i "", BAN_INDEXES.contains i))
      = [("A", true), ("B", true), ("A", true), ("B", true), ("A", true), ("B", true),
         ("A", false), ("B", false), ("B", false), ("A", false), ("A", false), ("B", false),
         ("B", true), ("A", true), ("B", true), ("A", true),
         ("B", false), ("A", false), ("A", false), ("B", false)])
    ∧ ∀ (aliases : List (String × String)) (champs : List String) (inp : Nat → TurnInput)
        (s : SeriesState), s.games.getLast? = some {} →
        ∀ s', runDraft aliases champs inp s = some s' →
          ∃ g', s'.games.getLast? = some g' ∧
            g'.bans_a.length = 5 ∧ g'.bans_b.length = 5 ∧
            g'.picks_a.length = 5 ∧ g'.picks_b.length = 5 := by
  constructor
  · decide
  · intro aliases champs inp s hfresh s' hrun
    have hcba : (List.range DRAFT_ORDER.length).countP slotBanA = 5 := by decide
    have hcbb : (List.range DRAFT_ORDER.length).countP slotBanB = 5 := by decide
    have hcpa : (List.range DRAFT_ORDER.length).countP slotPickA = 5 := by decide
    have hcpb : (List.range DRAFT_ORDER.length).countP slotPickB = 5 := by decide
    have hm : (runSlots aliases champs inp (List.range DRAFT_ORDER.length) (s, [])).map
        Prod.fst = some s' := hrun
    cases hr : runSlots aliases champs inp (List.range DRAFT_ORDER.length) (s, []) with
    | none => rw [hr] at hm; cases hm
    | some st' =>
      rw [hr] at hm
      injection hm with hm'
      obtain ⟨g', hg', ha, hb, hc, hd⟩ := runSlots_lengths _ _ _ hr {} hfresh
      rw [hcba] at ha
      rw [hcbb] at hb
      rw [hcpa] at hc
      rw [hcpb] at hd
      subst hm'
      exact ⟨g', hg', ha, hb, hc, hd⟩

/-- C2: a drafted game never records a duplicate champion nor one from the
fearless pool as of the start of the game; a submission resolving to a taken
or pooled champion leaves the turn's processing exactly as if the message
had not arrived (the turn is not consumed); and the random timeout fallback
is drawn only from ids neither taken nor pooled. -/
theorem C2_no_duplicate_selection :
    (∀ (aliases : List (String × String)) (champs : List String) (inp : Nat → TurnInput)
        (s : SeriesState), s.games.getLast? = some {} →
        ∀ s', runDraft aliases champs inp s = some s' →
          ∃ g', s'.games.getLast? = some g' ∧ (gameChamps g').Nodup ∧
            ∀ c ∈ gameChamps g', c ∉ s.fearless_pool)
    ∧ (∀ (aliases : List (String × String)) (taken fearless : List String)
        (m : String) (ms : List String) (cand : String),
        canonicalize aliases (parseSubmission m) = some cand →
        (cand ∈ taken ∨ cand ∈ fearless) →
        processMessages aliases taken fearless (m :: ms)
          = processMessages aliases taken fearless ms)
    ∧ (∀ (champs fearless taken : List String) (r : Nat) (c : String),
        random_champ champs fearless taken r = some c →
        c ∈ champs ∧ c ∉ taken ∧ c ∉ fearless) := by
  refine ⟨?_, ?_, random_champ_legal⟩
  · intro aliases champs inp s hfresh s' hrun
    have hm : (runSlots aliases champs inp (List.range DRAFT_ORDER.length) (s, [])).map
        Prod.fst = some s' := hrun
    cases hr : runSlots aliases champs inp (List.range DRAFT_ORDER.length) (s, []) with
    | none => rw [hr] at hm; cases hm
    | some st' =>
      rw [hr] at hm
      injection hm with hm'
      have hinv0 : draftInv s.fearless_pool (s, []) := by
        refine ⟨{}, hfresh, ?_, List.nodup_nil, ?_, ?_, ?_⟩
        · rfl
        · intro x hx; cases hx
        · intro x hx; exact hx
        · intro x hx; cases hx
      obtain ⟨g', hg', hms, hnd, hdisj, _, _⟩ := runSlots_inv _ _ _ hr hinv0
      subst hm'
      refine ⟨g', hg', ?_, ?_⟩
      · rw [hms]
        exact hnd
      · intro c hc
        rw [hms] at hc
        exact hdisj c hc
  · intro aliases taken fearless m ms cand hcand hmem
    have hstep : processMessages aliases taken fearless (m :: ms)
        = if cand ∈ taken ∨ cand ∈ fearless then processMessages aliases taken fearless ms
          else some cand := by
      simp only [processMessages, hcand]
    rw [hstep, if_pos hmem]

/-- C3: along any history of valid operations from a fresh series,
`score_a + score_b` equals the number of games with a winner set; an
accepted report sets the current game's winner and bumps exactly one score
by one; `swap_sides` preserves the score sum; `start_new_game` appends a
winnerless game without touching the scores. -/
theorem C3_score_invariant :
    (∀ (id : String) (bo : Nat) (ta tb : List Int) (ca cb : Int)
       (acts : List DraftAction) (s' : SeriesState),
       (∀ a ∈ acts, validAction a) →
       applyActions acts (SeriesState.new id bo ta tb ca cb) = some s' →
       s'.score_a + s'.score_b = decidedCount s')
    ∧ (∀ (s : SeriesState) (side : String) (o : ReportOutcome) (s' : SeriesState) (g : Game),
       (side = "A" ∨ side = "B") → report s side = some (o, s') →
       o ≠ ReportOutcome.doubleReport → s.games.getLast? = some g →
       s'.games.getLast? = some (setWinner side g) ∧
       s'.score_a + s'.score_b = s.score_a + s.score_b + 1 ∧
       ((s'.score_a = s.score_a + 1 ∧ s'.score_b = s.score_b) ∨
        (s'.score_b = s.score_b + 1 ∧ s'.score_a = s.score_a)))
    ∧ (∀ s : SeriesState, s.swap_sides.score_a + s.swap_sides.score_b
         = s.score_a + s.score_b)
    ∧ (∀ s : SeriesState, s.start_new_game.games = s.games ++ [({} : Game)] ∧
         ({} : Game).winner = none ∧
         s.start_new_game.score_a = s.score_a ∧ s.start_new_game.score_b = s.score_b) := by
  refine ⟨?_, ?_, ?_, ?_⟩
  · intro id bo ta tb ca cb acts s' hv h
    exact (applyActions_seriesInv acts _ s' hv h (seriesInv_new id bo ta tb ca cb)).1
  · intro s side o s' g hvalid hrep hno hg
    obtain ⟨g0, hg0, hcase⟩ := report_cases hrep
    rw [hg] at hg0
    injection hg0 with hgg
    subst hgg
    rcases hcase with ⟨_, ho, _⟩ | ⟨hw, rfl, _, _⟩
    · exact absurd ho hno
    · refine ⟨?_, ?_, ?_⟩
      · show (modifyLast (setWinner side) s.games).getLast? = _
        exact modifyLast_getLast? _ s.games g hg
      · rcases hvalid with rfl | rfl <;> simp [applyWinner] <;> omega
      · rcases hvalid with rfl | rfl
        · refine Or.inl ⟨?_, ?_⟩ <;> simp [applyWinner]
        · refine Or.inr ⟨?_, ?_⟩ <;> simp [applyWinner]
  · intro s
    show s.score_b + s.score_a = _
    omega
  · intro s
    exact ⟨rfl, rfl, rfl, rfl⟩

/-- The belle branches of `_report` are unreachable: `reportBranch` never
returns bo3Tie or bo5Tie, because `finished()` is false at 1-1 in a Bo3 and
at 2-2 in a Bo5. -/
theorem reportBranch_ne_tie (s' : SeriesState) :
    reportBranch s' ≠ ReportOutcome.bo3Tie ∧ reportBranch s' ≠ ReportOutcome.bo5Tie := by
  unfold reportBranch
  by_cases hfin : s'.finished = true
  · rw [if_pos hfin]
    by_cases h1 : s'.bo = 1
    · rw [if_pos h1]
      exact ⟨(fun h => nomatch h), (fun h => nomatch h)⟩
    · rw [if_neg h1]
      by_cases h3 : s'.bo = 3 ∧ s'.score_a = 1 ∧ s'.score_b = 1
      · exfalso
        obtain ⟨hb, hsa, hsb⟩ := h3
        unfold SeriesState.finished at hfin
        rw [hb, hsa, hsb] at hfin
        simp at hfin
      · rw [if_neg h3]
        by_cases h3e : s'.bo = 3
        · rw [if_pos h3e]
          exact ⟨(fun h => nomatch h), (fun h => nomatch h)⟩
        · rw [if_neg h3e]
          by_cases h5 : s'.bo = 5 ∧ s'.score_a = 2 ∧ s'.score_b = 2
          · exfalso
            obtain ⟨hb, hsa, hsb⟩ := h5
            unfold SeriesState.finished at hfin
            rw [hb, hsa, hsb] at hfin
            simp at hfin
          · rw [if_neg h5]
            exact ⟨(fun h => nomatch h), (fun h => nomatch h)⟩
  · rw [if_neg hfin]
    exact ⟨(fun h => nomatch h), (fun h => nomatch h)⟩

/-- C4: at the Bo3 midpoint tie the code does NOT offer a belle: reporting
"B" on a 1-0 Bo3 leaves the score 1-1 and the controller proceeds directly
to the next game (continueSeries); the bo3Tie branch is not taken. -/
theorem C4_bo3_tie_continues_without_belle :
    (report c4Series "B").map Prod.fst = some ReportOutcome.continueSeries ∧
    (report c4Series "B").map (fun p => (p.2.score_a, p.2.score_b)) = some (1, 1) ∧
    reportBranch (applyWinner c4Series "B") ≠ ReportOutcome.bo3Tie := by
  refine ⟨by decide, by decide, ?_⟩
  exact (reportBranch_ne_tie (applyWinner c4Series "B")).1

/-- C5: a winner report for a game whose winner is already set is rejected
as a double report and the series state is returned unchanged. -/
theorem C5_double_report_rejected (s : SeriesState) (side : String) (g : Game)
    (hg : s.games.getLast? = some g)
    (hw : g.winner = some "A" ∨ g.winner = some "B") :
    report s side = some (ReportOutcome.doubleReport, s) := by
  have htruthy : winnerTruthy g.winner = true := by
    rcases hw with h | h <;> rw [h] <;> rfl
  unfold report
  rw [hg]
  show (if winnerTruthy g.winner then some (ReportOutcome.doubleReport, s)
      else some (reportBranch (applyWinner s side), applyWinner s side)) = _
  rw [htruthy]
  rfl

/-- Witness for C5 at a concrete decided game. -/
theorem C5_double_report_rejected_witness :
    report c5Series "B" = some (ReportOutcome.doubleReport, c5Series) :=
  C5_double_report_rejected c5Series "B" { winner := some "A" } rfl (Or.inl rfl)

/-- C6: `swap_sides` is an involution on teams, captains and scores. -/
theorem C6_swap_sides_involution (s : SeriesState) :
    s.swap_sides.swap_sides.team_a = s.team_a ∧
    s.swap_sides.swap_sides.team_b = s.team_b ∧
    s.swap_sides.swap_sides.captain_a = s.captain_a ∧
    s.swap_sides.swap_sides.captain_b = s.captain_b ∧
    s.swap_sides.swap_sides.score_a = s.score_a ∧
    s.swap_sides.swap_sides.score_b = s.score_b :=
  ⟨rfl, rfl, rfl, rfl, rfl, rfl⟩

set_option maxRecDepth 8000 in
/-- C7: with a catalog containing "MonkeyKing" and its manual aliases,
"Wukong" and "wu  kong" resolve exactly (normalization lowercases and strips
spaces, and an exact alias match short-circuits the fuzzy path); "wuko"
matches no alias exactly and resolves through the nearest fuzzy match, whose
similarity to "wukong" is exactly 0.8 ≥ 0.8; when no alias reaches the 0.8
cutoff, resolution returns nothing. -/
theorem C7_alias_resolution :
    canonicalize monkeyCatalogAliases "Wukong" = some "MonkeyKing"
    ∧ canonicalize monkeyCatalogAliases "wu  kong" = some "MonkeyKing"
    ∧ normalize "wu  kong" = "wukong"
    ∧ (∀ (aliases : List (String × String)) (name cid : String),
        dictFind aliases (normalize name) = some cid →
        canonicalize aliases name = some cid)
    ∧ dictFind monkeyCatalogAliases (normalize "wuko") = none
    ∧ canonicalize monkeyCatalogAliases "wuko" = some "MonkeyKing"
    ∧ cutoff08 "wukong".toList "wuko".toList = true
    ∧ (∀ (aliases : List (String × String)) (name : String),
        dictFind aliases (normalize name) = none →
        (∀ k ∈ dictKeys aliases, cutoff08 k.toList (normalize name).toList = false) →
        canonicalize aliases name = none) := by
  refine ⟨by decide, by decide, by decide, ?_, by decide, by decide, by decide, ?_⟩
  · intro aliases name cid h
    unfold canonicalize
    rw [h]
  · intro aliases name h1 h2
    have hfilter : ((dictKeys aliases).map String.toList).filter
        (fun x => cutoff08 x (normalize name).toList) = [] := by
      rw [List.filter_eq_nil_iff]
      intro x hx
      obtain ⟨k, hk, rfl⟩ := List.mem_map.mp hx
      intro hc
      rw [h2 k hk] at hc
      cases hc
    have hclose : close1 (normalize name).toList ((dictKeys aliases).map String.toList)
        = none := by
      unfold close1
      rw [hfilter]
      rfl
    unfold canonicalize
    rw [h1, hclose]

/-- C8 counterexample: the cache is nonempty but older than the TTL, the
fetch fails, and the failure IS raised to the caller — against the claim
that with any previously fetched catalog the error is only logged. -/
theorem C8_stale_cache_raises :
    staleCache.champs ≠ [] ∧
    load_champs false 200000 86400 staleCache (Except.error ()) = Except.error () :=
  ⟨by decide, rfl⟩

/-- C8 amended: a failed fetch never replaces the cached catalog, but the
error is raised to the caller whenever the fetch is attempted — that is,
whenever the cache is empty or older than the TTL (or the refresh is
forced); only a call that finds a fresh nonempty cache is immune, because it
returns before fetching. -/
theorem C8_fetch_failure_behavior :
    (∀ (force : Bool) (now ttl : Nat) (cache : CatalogCache) (e : Unit),
       load_champs force now ttl cache (Except.error e) = Except.error e ∨
       load_champs force now ttl cache (Except.error e) = Except.ok cache)
    ∧ (∀ (now ttl : Nat) (cache : CatalogCache) (fetch : Except Unit (List String)),
       cache.champs ≠ [] → now - cache.cacheTime < ttl →
       load_champs false now ttl cache fetch = Except.ok cache)
    ∧ (∀ (now ttl : Nat) (cache : CatalogCache) (e : Unit),
       (cache.champs = [] ∨ ttl ≤ now - cache.cacheTime) →
       load_champs false now ttl cache (Except.error e) = Except.error e) := by
  refine ⟨?_, ?_, ?_⟩
  · intro force now ttl cache e
    unfold load_champs
    split
    · exact Or.inr rfl
    · exact Or.inl rfl
  · intro now ttl cache fetch hne hfresh
    unfold load_champs
    rw [if_pos ⟨by simp, hne, hfresh⟩]
  · intro now ttl cache e hstale
    unfold load_champs
    rw [if_neg ?_]
    intro ⟨_, hne, hfresh⟩
    rcases hstale with h | h
    · exact hne h
    · omega

/-- Witness for C8's amended statement at concrete caches. -/
theorem C8_fetch_failure_behavior_witness :
    load_champs false 200000 86400 staleCache (Except.error ()) = Except.error () ∧
    load_champs false 100 86400 { staleCache with cacheTime := 50 } (Except.ok ["Zed"])
      = Except.ok { staleCache with cacheTime := 50 } := by
  constructor
  · exact C8_fetch_failure_behavior.2.2 200000 86400 staleCache ()
      (Or.inr (by decide))
  · exact C8_fetch_failure_behavior.2.1 100 86400 _ (Except.ok ["Zed"])
      (by decide) (by decide)

/-- C9: the turn window is NOT reduced for a dev-filled solo session: the
combined teams hold exactly one real (non-bot) participant, yet the filter
`uid > 0` counts the nine positive bot ids too, so the full 60-unit window
applies; the 2-unit window needs the combined teams to hold literally one
member. -/
theorem C9_solo_with_bots_gets_full_timer :
    ((c9Series.team_a ++ c9Series.team_b).filter
        (fun uid => decide (uid < BOT_ID_START))).length = 1
    ∧ turnTime c9Series = 60
    ∧ turnTime { c9Series with team_a := [111], team_b := [] } = 2 := by decide

/-- C10: fearless banning is unconditional: the dispatched start_draft event
is independent of the lobby's fearless option (it carries teams, channel, bo
and captains only), the series is created with an empty pool, every pick of
a drafted game ends in the fearless pool, the pool only grows, and whatever
is in the pool at the start of a game is never recorded in that game. -/
theorem C10_fearless_always_on :
    (∀ (channelId : Nat) (bo : Nat) (f1 f2 cp1 cp2 : Bool)
       (team_a team_b : List Int) (cap_a cap_b : Int),
       dispatchFromLobby channelId ⟨bo, f1, cp1⟩ team_a team_b cap_a cap_b
         = dispatchFromLobby channelId ⟨bo, f2, cp2⟩ team_a team_b cap_a cap_b)
    ∧ (∀ (uuid : String) (ev : StartDraftEvent),
       (seriesFromEvent uuid ev).fearless_pool = [])
    ∧ (∀ (aliases : List (String × String)) (champs : List String) (inp : Nat → TurnInput)
        (s : SeriesState), s.games.getLast? = some {} →
        ∀ s', runDraft aliases champs inp s = some s' →
          ∃ g', s'.games.getLast? = some g' ∧
            (∀ c ∈ g'.picks_a ++ g'.picks_b, c ∈ s'.fearless_pool) ∧
            (∀ x ∈ s.fearless_pool, x ∈ s'.fearless_pool) ∧
            (∀ x ∈ s.fearless_pool, x ∉ gameChamps g')) := by
  refine ⟨fun _ _ _ _ _ _ _ _ _ _ => rfl, fun _ _ => rfl, ?_⟩
  intro aliases champs inp s hfresh s' hrun
  have hm : (runSlots aliases champs inp (List.range DRAFT_ORDER.length) (s, [])).map
      Prod.fst = some s' := hrun
  cases hr : runSlots aliases champs inp (List.range DRAFT_ORDER.length) (s, []) with
  | none => rw [hr] at hm; cases hm
  | some st' =>
    rw [hr] at hm
    injection hm with hm'
    have hinv0 : draftInv s.fearless_pool (s, []) := by
      refine ⟨{}, hfresh, rfl, List.nodup_nil, ?_, ?_, ?_⟩
      · intro x hx; cases hx
      · intro x hx; exact hx
      · intro x hx; cases hx
    obtain ⟨g', hg', hms, _, hdisj, hF, hpicks⟩ := runSlots_inv _ _ _ hr hinv0
    subst hm'
    refine ⟨g', hg', hpicks, hF, ?_⟩
    intro x hxF hxg
    rw [hms] at hxg
    exact hdisj x hxg hxF

/- ═══════════════ Witnesses instantiating the universal claims ═══════════════ -/

/-- Witness for C1: a full silent draft over twenty concrete champions
produces 5 bans and 5 picks per side. -/
theorem C1_turn_order_and_counts_witness :
    ∃ g', ((runDraft [] testChamps silentInput testSeries).getD testSeries).games.getLast?
        = some g' ∧
      g'.bans_a.length = 5 ∧ g'.bans_b.length = 5 ∧
      g'.picks_a.length = 5 ∧ g'.picks_b.length = 5 := by
  have hsome : (runDraft [] testChamps silentInput testSeries).isSome = true := by decide
  obtain ⟨s', hs'⟩ := Option.isSome_iff_exists.mp hsome
  have h := C1_turn_order_and_counts.2 [] testChamps silentInput testSeries rfl s' hs'
  rw [hs']
  exact h

/-- Witness for C2 on the same concrete draft. -/
theorem C2_no_duplicate_selection_witness :
    ∃ g', ((runDraft [] testChamps silentInput testSeries).getD testSeries).games.getLast?
        = some g' ∧ (gameChamps g').Nodup ∧
      ∀ c ∈ gameChamps g', c ∉ testSeries.fearless_pool := by
  have hsome : (runDraft [] testChamps silentInput testSeries).isSome = true := by decide
  obtain ⟨s', hs'⟩ := Option.isSome_iff_exists.mp hsome
  have h := C2_no_duplicate_selection.1 [] testChamps silentInput testSeries rfl s' hs'
  rw [hs']
  exact h

/-- A concrete valid history: a report, a side swap, a new game, a report. -/
def c3Acts : List DraftAction :=
  [DraftAction.reportWin "A", DraftAction.swapSides, DraftAction.newGame,
   DraftAction.reportWin "B"]

/-- Witness for C3 along the concrete history. -/
theorem C3_score_invariant_witness :
    ∃ s', applyActions c3Acts (SeriesState.new "w3" 3 [1] [2] 1 2) = some s' ∧
      s'.score_a + s'.score_b = decidedCount s' := by
  have hsome : (applyActions c3Acts (SeriesState.new "w3" 3 [1] [2] 1 2)).isSome = true := by
    decide
  obtain ⟨s', hs'⟩ := Option.isSome_iff_exists.mp hsome
  refine ⟨s', hs', C3_score_invariant.1 "w3" 3 [1] [2] 1 2 c3Acts s' ?_ hs'⟩
  intro a ha
  fin_cases ha <;> simp [validAction]

/-- Witness for C10: the dispatched event with fearless ON equals the one
with fearless OFF, and the concrete draft puts all ten picks in the pool. -/
theorem C10_fearless_always_on_witness :
    dispatchFromLobby 1 ⟨3, true, true⟩ [1] [2] 1 2
      = dispatchFromLobby 1 ⟨3, false, false⟩ [1] [2] 1 2 ∧
    ∃ g', ((runDraft [] testChamps silentInput testSeries).getD testSeries).games.getLast?
        = some g' ∧ ∀ c ∈ g'.picks_a ++ g'.picks_b,
          c ∈ ((runDraft [] testChamps silentInput testSeries).getD testSeries).fearless_pool := by
  constructor
  · exact C10_fearless_always_on.1 1 3 true false true false [1] [2] 1 2
  · have hsome : (runDraft [] testChamps silentInput testSeries).isSome = true := by decide
    obtain ⟨s', hs'⟩ := Option.isSome_iff_exists.mp hsome
    obtain ⟨g', hg', hpicks, _, _⟩ :=
      C10_fearless_always_on.2.2 [] testChamps silentInput testSeries rfl s' hs'
    rw [hs']
    exact ⟨g', hg', hpicks⟩

end Oogway
